import Mathlib

/-!
Verification of the Delta SDK `ApiClient` (covata/delta/apiclient.py):
a shallow embedding of the request-building, parameter-marshaling and
response-handling logic, with theorems checking the natural-language
specification against it.

Python dictionaries are modelled as insertion-ordered association lists
(`List (String × α)`) with overwrite-in-place semantics, matching CPython
dict behaviour.  Query-parameter dicts use `Option String` values: the
`requests` library drops `None`-valued parameters when encoding the query
string, which we model with `sentParams`.
-/

namespace Delta

/-- Python dict lookup `d[k]` / `d.get(k)`: first (unique) binding of `k`. -/
def dictLookup (d : List (String × α)) (k : String) : Option α :=
  match d with
  | [] => none
  | (k', v) :: rest => if k' = k then some v else dictLookup rest k

/-- Python dict assignment `d[k] = v`: overwrite in place if the key is
present, otherwise append at the end (CPython preserves insertion order). -/
def dictInsert (d : List (String × α)) (k : String) (v : α) :
    List (String × α) :=
  match d with
  | [] => [(k, v)]
  | (k', v') :: rest =>
      if k' = k then (k, v) :: rest else (k', v') :: dictInsert rest k v

/-- Python `d.update(e)` (also `dict(d, **e)`): fold assignments of `e`
into `d` in order. -/
def dictUpdate (d e : List (String × α)) : List (String × α) :=
  e.foldl (fun acc p => dictInsert acc p.1 p.2) d

/-- The query parameters the `requests` library actually encodes on the
wire: `None`-valued entries are dropped. -/
def sentParams (d : List (String × Option String)) : List (String × String) :=
  d.filterMap (fun p => p.2.map (fun v => (p.1, v)))

/-- Python truthiness of an `int | None` value: `None` and `0` are falsy. -/
def pyTruthy : Option Int → Bool
  | none => false
  | some n => n != 0

/-- Python `int(page) if page else None` applied to an `int | None` argument,
rendered to the string the query encoder sends. -/
def pageParam (page : Option Int) : Option String :=
  if pyTruthy page then page.map toString else none

/-- Enumeration `SecretLookupType` from apiclient.py. -/
inductive SecretLookupType where
  | base
  | derived
  | any
  deriving DecidableEq, Repr

/-- Computation `dict(("metadata." + k, v) for k, v in metadata.items())`: the
metadata filter keys namespaced with the fixed `"metadata."` prefix. -/
def metadataPrefixed (md : List (String × String)) :
    List (String × Option String) :=
  md.foldl (fun acc p => dictInsert acc ("metadata." ++ p.1) (some p.2)) []

/-- Query-parameter construction of `ApiClient.get_secrets`
(apiclient.py lines 436-451): the initial `dict(...)` literal, the
optional metadata `params.update`, then the lookup-type conditional that
assigns `params["baseSecret"]`. -/
def getSecretsParams (base_secret_id created_by rsa_key_owner_id :
    Option String) (metadata : Option (List (String × String)))
    (lookup_type : SecretLookupType) (page page_size : Option Int) :
    List (String × Option String) :=
  let params : List (String × Option String) :=
    [("page", pageParam page),
     ("pageSize", pageParam page_size),
     ("baseSecret", base_secret_id),
     ("createdBy", created_by),
     ("rsaKeyOwner", rsa_key_owner_id)]
  let params := match metadata with
    | none => params
    | some md => dictUpdate params (metadataPrefixed md)
  match lookup_type with
  | SecretLookupType.base => dictInsert params "baseSecret" (some "false")
  | SecretLookupType.derived => dictInsert params "baseSecret" (some "true")
  | SecretLookupType.any => params

/-- JSON values, as far as the client's payloads need them: strings and
string-keyed objects. -/
inductive Json where
  | str : String → Json
  | obj : List (String × Json) → Json

/-- Error outcomes of a client call.  `remoteError` is the generic
`requests.exceptions.HTTPError` that `response.raise_for_status()` raises
for any 4xx/5xx status — the only error the code in apiclient.py raises on
a bad response; it carries the response status.  `keyError` and
`valueError` mirror Python `KeyError`/`ValueError` from header/body
access and `int(...)`.  `validationError` models the pre-network argument
checks.  `versionConflict` is Modelled from the spec: the spec's error
taxonomy (§7) names a `VersionConflict` specialization of `RemoteError`
for precondition-failed metadata updates; no such class exists in
apiclient.py, and the constructor exists here only so that theorems can
state whether a failure is, or is not, that specialization. -/
inductive DeltaError where
  | remoteError : Nat → DeltaError
  | versionConflict : Nat → DeltaError
  | validationError : String → DeltaError
  | keyError : String → DeltaError
  | valueError : String → DeltaError
  deriving DecidableEq, Repr

/-- Behaviour of `response.raise_for_status()` from the `requests` library: raises
`HTTPError` exactly when the status code is in [400, 600) ("Client Error"
for 4xx, "Server Error" for 5xx); all other statuses pass through. -/
def raise_for_status (status : Nat) : Except DeltaError Unit :=
  if 400 ≤ status ∧ status < 600 then
    Except.error (DeltaError.remoteError status)
  else
    Except.ok ()

/-- An HTTP response as the client observes it: status code, the JSON
body decoded as a string-to-string object (the shape every response body
used by these operations has), and the response headers. -/
structure HttpResponse where
  status : Nat
  jsonBody : List (String × String)
  headers : List (String × String)

/-- ASCII lowercasing of a header name (header names are ASCII). -/
def asciiLower (s : String) : String :=
  String.mk (s.data.map (fun c =>
    if 'A' ≤ c ∧ c ≤ 'Z' then Char.ofNat (c.toNat + 32) else c))

/-- Response headers in `requests` are case-insensitive: lookup compares
lowercased header names. -/
def headerLookup (headers : List (String × String)) (k : String) :
    Option String :=
  match headers with
  | [] => none
  | (k', v) :: rest =>
      if asciiLower k' = asciiLower k then some v else headerLookup rest k

/-- Fixed service endpoints from apiclient.py. -/
def DELTA_URL : String := "https://delta.covata.io/v1"

def RESOURCE_IDENTITIES : String := "/identities"

def RESOURCE_SECRETS : String := "/secrets"

def RESOURCE_EVENTS : String := "/events"

/-- JSON payload of `ApiClient.register_identity` (apiclient.py lines
85-93): the four-entry `body` dict followed by the comprehension
`dict((k, v) for k, v in body.items() if v is not None)` that drops
`None`-valued entries. -/
def registerIdentityPayload (public_encryption_key public_signing_key :
    String) (external_id : Option String)
    (metadata : Option (List (String × String))) : List (String × Json) :=
  let body : List (String × Option Json) :=
    [("signingPublicKey", some (Json.str public_signing_key)),
     ("cryptoPublicKey", some (Json.str public_encryption_key)),
     ("externalId", external_id.map Json.str),
     ("metadata", metadata.map (fun md =>
        Json.obj (md.map (fun p => (p.1, Json.str p.2)))))]
  body.filterMap (fun p => p.2.map (fun v => (p.1, v)))

/-- Response handling of `ApiClient.register_identity` (apiclient.py
lines 91-97): `raise_for_status()` then `response.json()['identityId']`
(a missing key is a Python `KeyError`). -/
def register_identity (response : HttpResponse) :
    Except DeltaError String := do
  raise_for_status response.status
  match dictLookup response.jsonBody "identityId" with
  | some identity_id => Except.ok identity_id
  | none => Except.error (DeltaError.keyError "identityId")

/-- An outbound HTTP request as the client builds it before signing:
method, url, header dict, JSON body (if any). -/
structure HttpRequest where
  method : String
  url : String
  headers : List (String × String)
  jsonBody : Option Json

/-- The PUT request `ApiClient.update_secret_metadata` builds
(apiclient.py lines 321-330): url
`{DELTA_URL}{RESOURCE_SECRETS}/{secret_id}/metadata`, headers
`{"if-match": str(version)}`, body `json=metadata` (the metadata map
itself). -/
def update_secret_metadata_request (secret_id : String)
    (metadata : List (String × String)) (version : Int) : HttpRequest :=
  { method := "PUT"
    url := DELTA_URL ++ RESOURCE_SECRETS ++ "/" ++ secret_id ++ "/metadata"
    headers := [("if-match", toString version)]
    jsonBody := some (Json.obj (metadata.map (fun p => (p.1, Json.str p.2)))) }

/-- The PUT request `ApiClient.update_identity_metadata` builds
(apiclient.py lines 353-362): url
`{DELTA_URL}{RESOURCE_IDENTITIES}/{identity_id}`, headers
`{"if-match": str(version)}`, body `json=dict(metadata=metadata)`
(the metadata map wrapped under a single `"metadata"` key). -/
def update_identity_metadata_request (identity_id : String)
    (metadata : List (String × String)) (version : Int) : HttpRequest :=
  { method := "PUT"
    url := DELTA_URL ++ RESOURCE_IDENTITIES ++ "/" ++ identity_id
    headers := [("if-match", toString version)]
    jsonBody := some (Json.obj
      [("metadata", Json.obj (metadata.map (fun p => (p.1, Json.str p.2))))]) }

/-- Response handling of `ApiClient.update_secret_metadata`
(apiclient.py line 332): just `response.raise_for_status()` — no status
inspection, no error translation. -/
def update_secret_metadata (response_status : Nat) :
    Except DeltaError Unit :=
  raise_for_status response_status

/-- Response handling of `ApiClient.update_identity_metadata`
(apiclient.py line 363): just `response.raise_for_status()`. -/
def update_identity_metadata (response_status : Nat) :
    Except DeltaError Unit :=
  raise_for_status response_status

/-- Decimal digit run to a natural number; `none` if empty or a
non-digit appears. -/
def decDigits : List Char → Option Nat
  | [] => none
  | cs => cs.foldl (fun acc c =>
      match acc with
      | none => none
      | some n =>
          if '0' ≤ c ∧ c ≤ '9' then some (n * 10 + (c.toNat - 48)) else none)
      (some 0)

/-- Python `int(s)` on a string, as far as these claims need it: an
optional sign followed by a non-empty decimal digit run, `ValueError`
otherwise. -/
def pyInt (s : String) : Except DeltaError Int :=
  let parsed : Option Int :=
    match s.data with
    | '-' :: rest => (decDigits rest).map (fun n => -(n : Int))
    | '+' :: rest => (decDigits rest).map (fun n => (n : Int))
    | cs => (decDigits cs).map (fun n => (n : Int))
  match parsed with
  | some n => Except.ok n
  | none => Except.error (DeltaError.valueError s)

/-- Response handling of `ApiClient.get_secret_metadata` (apiclient.py
lines 269-279): `raise_for_status()`, `metadata = dict(response.json())`,
`version = int(response.headers["ETag"])`, return `(metadata, version)`.
A missing `ETag` header is a Python `KeyError`. -/
def get_secret_metadata (response : HttpResponse) :
    Except DeltaError (List (String × String) × Int) := do
  raise_for_status response.status
  let metadata := response.jsonBody
  match headerLookup response.headers "ETag" with
  | none => Except.error (DeltaError.keyError "ETag")
  | some etag => do
      let version ← pyInt etag
      Except.ok (metadata, version)

/-- Modelled from the spec: the `utils.check_arguments` decorator
(covata.delta.utils is not part of this excerpt; apiclient.py lines
121-124 only attach it) evaluates the given predicate on the named
argument before the operation body runs and fails with a validation
error — "detected before any network call" — when it is falsy.  The
predicate itself is taken verbatim from apiclient.py:
`lambda x: x is not None and dict(x)`, truthy exactly for a non-`None`,
non-empty map. -/
def metadataArgumentOk (metadata : Option (List (String × String))) :
    Bool :=
  match metadata with
  | none => false
  | some md => !md.isEmpty

/-- Modelled from the spec: the `utils.check_optional_pagination`
decorator (attached at apiclient.py lines 120 and 397; covata.delta.utils
is not in this excerpt) validates each pagination argument before the
operation body runs — "pagination parameters are optional positive
integers" (§4.2), a shape check "detected before any network call" (§7).
An argument passes when it is absent or a positive integer. -/
def paginationArgumentOk : Option Int → Bool
  | none => true
  | some n => decide (0 < n)

/-- Modelled from the spec: the metadata predicate of the
`check_arguments` decorator on `get_secrets` (apiclient.py lines
398-401), `lambda x: x is None or dict(x)` — truthy exactly for an
absent or non-empty map. -/
def getSecretsMetadataArgumentOk :
    Option (List (String × String)) → Bool
  | none => true
  | some md => !md.isEmpty

/-- Embedding of `ApiClient.get_identities_by_metadata` (apiclient.py lines 119-151)
up to the outbound query: the (spec-modelled) decorator checks — the
outermost-first application order runs `check_optional_pagination`
(line 120) before the metadata `check_arguments` (lines 121-124) — then
`params=dict(metadata_, page=int(page) if page else None,
pageSize=int(page_size) if page_size else None)`.  Returns the query
parameters `requests` sends on the wire; every validation failure
happens before any request is built.  (`check_id` on the requestor id
only constrains an argument the query does not depend on.) -/
def get_identities_by_metadata (metadata : Option (List (String × String)))
    (page page_size : Option Int) :
    Except DeltaError (List (String × String)) :=
  if paginationArgumentOk page ∧ paginationArgumentOk page_size then
    if metadataArgumentOk metadata then
      let md := metadata.getD []
      let params := dictInsert (dictInsert (metadataPrefixed md)
        "page" (pageParam page)) "pageSize" (pageParam page_size)
      Except.ok (sentParams params)
    else
      Except.error
        (DeltaError.validationError "must be a non-empty dict[str, str]")
  else
    Except.error (DeltaError.validationError "must be a positive integer")

/-- Embedding of `ApiClient.get_secrets` (apiclient.py lines 395-460) up
to the outbound query: the (spec-modelled) decorator checks in
outermost-first order — `check_optional_pagination` (line 397) before
the metadata `check_arguments` (lines 398-401) — then the parameter
construction `getSecretsParams`.  The `lookup_type` `check_arguments`
(lines 402-405) only asserts `isinstance(x, SecretLookupType)`, which
the embedding enforces by typing; `check_id`/`check_optional_id` only
constrain the well-formedness of id strings the marshaling passes
through unchanged. -/
def get_secrets (base_secret_id created_by rsa_key_owner_id :
    Option String) (metadata : Option (List (String × String)))
    (lookup_type : SecretLookupType) (page page_size : Option Int) :
    Except DeltaError (List (String × String)) :=
  if paginationArgumentOk page ∧ paginationArgumentOk page_size then
    if getSecretsMetadataArgumentOk metadata then
      Except.ok (sentParams (getSecretsParams base_secret_id created_by
        rsa_key_owner_id metadata lookup_type page page_size))
    else
      Except.error
        (DeltaError.validationError "must be a non-empty dict[str, str]")
  else
    Except.error (DeltaError.validationError "must be a positive integer")

/-- A `requests.PreparedRequest`, as far as the signer touches it. -/
structure PreparedRequest where
  method : String
  url : String
  headers : List (String × String)
  body : Option String

/-- The `sign_request` closure returned by `ApiClient.signer`
(apiclient.py lines 474-485): look up the private signing key for the
bound identity in the key store, then replace `r.headers` with
`signer.get_updated_headers(...)`.  The key store and the header
computation live outside this excerpt, so both are parameters: the claim
this definition serves is a frame property that holds for every such
pair of functions. -/
def sign_request
    (get_updated_headers : String → String → String →
      List (String × String) → Option String → String →
      List (String × String))
    (get_private_signing_key : String → String)
    (identity_id : String) (r : PreparedRequest) : PreparedRequest :=
  let signing_key := get_private_signing_key identity_id
  { r with headers := (get_updated_headers identity_id r.method r.url
      r.headers r.body signing_key) }

/-! ### Dictionary lemmas -/

theorem dictLookup_insert_self {α : Type} (d : List (String × α)) (k : String)
    (v : α) : dictLookup (dictInsert d k v) k = some v := by
  induction d with
  | nil => simp [dictInsert, dictLookup]
  | cons p rest ih =>
      obtain ⟨k', v'⟩ := p
      by_cases h : k' = k
      · simp [dictInsert, dictLookup, h]
      · simp [dictInsert, dictLookup, h, ih]

theorem dictLookup_insert_ne {α : Type} (d : List (String × α))
    (k k' : String) (v : α) (h : k' ≠ k) :
    dictLookup (dictInsert d k' v) k = dictLookup d k := by
  induction d with
  | nil => simp [dictInsert, dictLookup, h]
  | cons p rest ih =>
      obtain ⟨k₀, v₀⟩ := p
      by_cases h0 : k₀ = k'
      · subst h0
        simp [dictInsert, dictLookup, h]
      · simp [dictInsert, dictLookup, h0, ih]

theorem mem_dictInsert_elim {α : Type} {d : List (String × α)}
    {k : String} {v : α} {p : String × α} (h : p ∈ dictInsert d k v) :
    p ∈ d ∨ p = (k, v) := by
  induction d with
  | nil => simpa [dictInsert] using h
  | cons q rest ih =>
      obtain ⟨k₀, v₀⟩ := q
      by_cases h0 : k₀ = k
      · simp [dictInsert, h0] at h
        rcases h with h | h
        · right; simp [h]
        · left; simp [h]
      · simp [dictInsert, h0] at h
        rcases h with h | h
        · left; simp [h]
        · rcases ih h with h' | h'
          · left; simp [h']
          · right; exact h'

theorem mem_dictInsert_self {α : Type} (d : List (String × α)) (k : String)
    (v : α) : (k, v) ∈ dictInsert d k v := by
  induction d with
  | nil => simp [dictInsert]
  | cons q rest ih =>
      obtain ⟨k₀, v₀⟩ := q
      by_cases h0 : k₀ = k
      · simp [dictInsert, h0]
      · simp [dictInsert, h0]
        right
        exact ih

theorem mem_dictInsert_of_ne {α : Type} {d : List (String × α)}
    {p : String × α} {k : String} {v : α} (hp : p ∈ d) (hne : p.1 ≠ k) :
    p ∈ dictInsert d k v := by
  induction d with
  | nil => simp at hp
  | cons q rest ih =>
      obtain ⟨k₀, v₀⟩ := q
      rcases List.mem_cons.mp hp with h | h
      · by_cases h0 : k₀ = k
        · exfalso
          apply hne
          rw [h]
          exact h0
        · simp [dictInsert, h0, h]
      · by_cases h0 : k₀ = k
        · simp [dictInsert, h0]
          right
          exact h
        · simp [dictInsert, h0]
          right
          exact ih h

theorem mem_dictUpdate_elim {α : Type} {d e : List (String × α)}
    {p : String × α} (h : p ∈ dictUpdate d e) : p ∈ d ∨ p ∈ e := by
  induction e generalizing d with
  | nil => left; simpa [dictUpdate] using h
  | cons q rest ih =>
      have h' : p ∈ dictUpdate (dictInsert d q.1 q.2) rest := by
        simpa [dictUpdate] using h
      rcases ih h' with h'' | h''
      · rcases mem_dictInsert_elim h'' with h3 | h3
        · left; exact h3
        · right
          rw [h3]
          simp
      · right
        exact List.mem_cons_of_mem _ h''

theorem dictLookup_dictUpdate_ne {α : Type} (d e : List (String × α))
    (k : String) (h : ∀ p ∈ e, p.1 ≠ k) :
    dictLookup (dictUpdate d e) k = dictLookup d k := by
  induction e generalizing d with
  | nil => simp [dictUpdate]
  | cons q rest ih =>
      have hq : q.1 ≠ k := h q (List.mem_cons_self _ _)
      have hrest : ∀ p ∈ rest, p.1 ≠ k := fun p hp =>
        h p (List.mem_cons_of_mem _ hp)
      calc dictLookup (dictUpdate d (q :: rest)) k
          = dictLookup (dictUpdate (dictInsert d q.1 q.2) rest) k := by
            simp [dictUpdate]
        _ = dictLookup (dictInsert d q.1 q.2) k := ih _ hrest
        _ = dictLookup d k := dictLookup_insert_ne _ _ _ _ hq

theorem mem_sentParams_of_some {d : List (String × Option String)}
    {k v : String} (h : (k, some v) ∈ d) : (k, v) ∈ sentParams d := by
  apply List.mem_filterMap.mpr
  exact ⟨(k, some v), h, rfl⟩

theorem dictLookup_sentParams_of_some {d : List (String × Option String)}
    {k v : String} (h : dictLookup d k = some (some v)) :
    dictLookup (sentParams d) k = some v := by
  induction d with
  | nil => simp [dictLookup] at h
  | cons p rest ih =>
      obtain ⟨k₀, v₀⟩ := p
      by_cases h0 : k₀ = k
      · subst h0
        simp [dictLookup] at h
        subst h
        simp [sentParams, dictLookup]
      · simp [dictLookup, h0] at h
        cases v₀ with
        | none => simpa [sentParams, dictLookup] using ih h
        | some w =>
            simp [sentParams, dictLookup, h0]
            simpa [sentParams] using ih h

theorem dictLookup_sentParams_eq_none {d : List (String × Option String)}
    {k : String} (h : ∀ p ∈ d, p.1 = k → p.2 = none) :
    dictLookup (sentParams d) k = none := by
  induction d with
  | nil => simp [sentParams, dictLookup]
  | cons p rest ih =>
      obtain ⟨k₀, v₀⟩ := p
      have hrest : ∀ p ∈ rest, p.1 = k → p.2 = none := fun p hp =>
        h p (List.mem_cons_of_mem _ hp)
      cases v₀ with
      | none => simpa [sentParams] using ih hrest
      | some w =>
          have hk : k₀ ≠ k := by
            intro he
            have := h (k₀, some w) (List.mem_cons_self _ _) he
            simp at this
          simp [sentParams, dictLookup, hk]
          simpa [sentParams] using ih hrest

/-! ### The `"metadata."` prefix never collides with the fixed parameter
keys, and prefixing is injective -/

theorem metadata_prefix_data (k : String) :
    ("metadata." ++ k).data = "metadata.".data ++ k.data := rfl

theorem metadata_prefix_ne_of_head {s : String} (k : String)
    (h : s.data.head? ≠ some 'm') : "metadata." ++ k ≠ s := by
  intro he
  apply h
  rw [← he]
  rfl

theorem metadata_prefix_inj {a b : String}
    (h : "metadata." ++ a = "metadata." ++ b) : a = b := by
  have hd : "metadata.".data ++ a.data = "metadata.".data ++ b.data := by
    rw [← metadata_prefix_data, ← metadata_prefix_data, h]
  have hab : a.data = b.data := List.append_cancel_left hd
  cases a
  cases b
  exact congrArg String.mk hab

/-- Every key of `metadataPrefixed md` (and more generally of the fold it
is built by, from any accumulator with prefixed keys) carries the
`"metadata."` prefix. -/
theorem metadataPrefixed_foldl_key_shape
    (md : List (String × String)) (acc : List (String × Option String))
    (hacc : ∀ p ∈ acc, ∃ k, p.1 = "metadata." ++ k) :
    ∀ p ∈ md.foldl
      (fun acc p => dictInsert acc ("metadata." ++ p.1) (some p.2)) acc,
      ∃ k, p.1 = "metadata." ++ k := by
  induction md generalizing acc with
  | nil => simpa using hacc
  | cons q rest ih =>
      intro p hp
      refine ih (dictInsert acc ("metadata." ++ q.1) (some q.2)) ?_ p
        (by simpa using hp)
      intro p' hp'
      rcases mem_dictInsert_elim hp' with h' | h'
      · exact hacc p' h'
      · exact ⟨q.1, by rw [h']⟩

theorem metadataPrefixed_key_shape (md : List (String × String)) :
    ∀ p ∈ metadataPrefixed md, ∃ k, p.1 = "metadata." ++ k := by
  have := metadataPrefixed_foldl_key_shape md [] (by simp)
  simpa [metadataPrefixed] using this

theorem metadataPrefixed_key_ne {md : List (String × String)}
    {s : String} (hs : s.data.head? ≠ some 'm') :
    ∀ p ∈ metadataPrefixed md, p.1 ≠ s := by
  intro p hp
  obtain ⟨k, hk⟩ := metadataPrefixed_key_shape md p hp
  rw [hk]
  exact metadata_prefix_ne_of_head k hs

/-- Folding further metadata insertions whose (prefixed) keys differ from
`p.1` preserves membership of `p`. -/
theorem mem_foldl_metadataPrefixed_preserved
    (l : List (String × String)) (acc : List (String × Option String))
    (p : String × Option String) (hp : p ∈ acc)
    (h : ∀ q ∈ l, ("metadata." ++ q.1) ≠ p.1) :
    p ∈ l.foldl
      (fun acc q => dictInsert acc ("metadata." ++ q.1) (some q.2)) acc := by
  induction l generalizing acc with
  | nil => simpa using hp
  | cons q rest ih =>
      simp only [List.foldl_cons]
      refine ih _ ?_ (fun r hr => h r (List.mem_cons_of_mem _ hr))
      exact mem_dictInsert_of_ne hp
        (fun he => h q (List.mem_cons_self _ _) he.symm)

theorem mem_metadataPrefixed_foldl {md : List (String × String)}
    (acc : List (String × Option String)) {k v : String}
    (hmem : (k, v) ∈ md) (hnd : (md.map Prod.fst).Nodup) :
    ("metadata." ++ k, some v) ∈ md.foldl
      (fun acc q => dictInsert acc ("metadata." ++ q.1) (some q.2)) acc := by
  induction md generalizing acc with
  | nil => simp at hmem
  | cons q rest ih =>
      obtain ⟨qk, qv⟩ := q
      have hnd' := List.nodup_cons.mp
        (show (qk :: rest.map Prod.fst).Nodup from hnd)
      rcases List.mem_cons.mp hmem with h | h
      · have hk : k = qk := congrArg Prod.fst h
        have hv : v = qv := congrArg Prod.snd h
        subst hk
        subst hv
        simp only [List.foldl_cons]
        refine mem_foldl_metadataPrefixed_preserved rest _ _
          (mem_dictInsert_self _ _ _) ?_
        intro r hr he
        have hrk : r.1 = k := metadata_prefix_inj (by simpa using he)
        apply hnd'.1
        rw [← hrk]
        exact List.mem_map_of_mem Prod.fst hr
      · simp only [List.foldl_cons]
        exact ih _ h hnd'.2

theorem mem_metadataPrefixed {md : List (String × String)} {k v : String}
    (hmem : (k, v) ∈ md) (hnd : (md.map Prod.fst).Nodup) :
    ("metadata." ++ k, some v) ∈ metadataPrefixed md :=
  mem_metadataPrefixed_foldl [] hmem hnd

/-! ### Lookup of the `baseSecret` parameter in `get_secrets` queries -/

theorem getSecrets_base_lookup (bsid cb rko : Option String)
    (md : Option (List (String × String))) (pg ps : Option Int) :
    dictLookup (sentParams
      (getSecretsParams bsid cb rko md SecretLookupType.base pg ps))
      "baseSecret" = some "false" := by
  apply dictLookup_sentParams_of_some
  show dictLookup (dictInsert _ "baseSecret" (some "false")) "baseSecret" = _
  exact dictLookup_insert_self _ _ _

theorem getSecrets_derived_lookup (bsid cb rko : Option String)
    (md : Option (List (String × String))) (pg ps : Option Int) :
    dictLookup (sentParams
      (getSecretsParams bsid cb rko md SecretLookupType.derived pg ps))
      "baseSecret" = some "true" := by
  apply dictLookup_sentParams_of_some
  show dictLookup (dictInsert _ "baseSecret" (some "true")) "baseSecret" = _
  exact dictLookup_insert_self _ _ _

theorem getSecrets_any_lookup (bsid cb rko : Option String)
    (md : Option (List (String × String))) (pg ps : Option Int) :
    dictLookup (sentParams
      (getSecretsParams bsid cb rko md SecretLookupType.any pg ps))
      "baseSecret" = bsid := by
  have hhead : ("baseSecret" : String).data.head? ≠ some 'm' := by decide
  cases bsid with
  | some id =>
      apply dictLookup_sentParams_of_some
      show dictLookup (match md with
        | none => _
        | some m => dictUpdate _ (metadataPrefixed m)) "baseSecret" = _
      cases md with
      | none => rfl
      | some m =>
          rw [dictLookup_dictUpdate_ne _ _ _ (metadataPrefixed_key_ne hhead)]
          rfl
  | none =>
      apply dictLookup_sentParams_eq_none
      intro p hp hk
      have hp' : p ∈ (match md with
        | none => [("page", pageParam pg), ("pageSize", pageParam ps),
            ("baseSecret", none), ("createdBy", cb), ("rsaKeyOwner", rko)]
        | some m => dictUpdate [("page", pageParam pg),
            ("pageSize", pageParam ps), ("baseSecret", none),
            ("createdBy", cb), ("rsaKeyOwner", rko)]
            (metadataPrefixed m)) := hp
      have hlit : p ∈ [("page", pageParam pg), ("pageSize", pageParam ps),
          (("baseSecret" : String), (none : Option String)),
          ("createdBy", cb), ("rsaKeyOwner", rko)] → p.2 = none := by
        intro hmem
        rcases List.mem_cons.mp hmem with h | hmem
        · have h1 : p.1 = "page" := congrArg Prod.fst h
          rw [h1] at hk
          exact absurd hk (by decide)
        rcases List.mem_cons.mp hmem with h | hmem
        · have h1 : p.1 = "pageSize" := congrArg Prod.fst h
          rw [h1] at hk
          exact absurd hk (by decide)
        rcases List.mem_cons.mp hmem with h | hmem
        · exact congrArg Prod.snd h
        rcases List.mem_cons.mp hmem with h | hmem
        · have h1 : p.1 = "createdBy" := congrArg Prod.fst h
          rw [h1] at hk
          exact absurd hk (by decide)
        rcases List.mem_cons.mp hmem with h | hmem
        · have h1 : p.1 = "rsaKeyOwner" := congrArg Prod.fst h
          rw [h1] at hk
          exact absurd hk (by decide)
        · simp at hmem
      cases md with
      | none => exact hlit hp'
      | some m =>
          rcases mem_dictUpdate_elim hp' with h | h
          · exact hlit h
          · exact absurd hk (metadataPrefixed_key_ne hhead p h)

/-- C1: for every `get_secrets` call, the derived-secret filter is
tri-state in `lookup_type`: `base` sends `baseSecret=false`, `derived`
sends `baseSecret=true`, and `any` leaves the parameter exactly as the
lookup-type-independent arguments set it (so the lookup type itself
contributes no filter). -/
theorem getSecrets_lookupType_tristate (bsid cb rko : Option String)
    (md : Option (List (String × String))) (pg ps : Option Int) :
    dictLookup (sentParams
      (getSecretsParams bsid cb rko md SecretLookupType.base pg ps))
      "baseSecret" = some "false" ∧
    dictLookup (sentParams
      (getSecretsParams bsid cb rko md SecretLookupType.derived pg ps))
      "baseSecret" = some "true" ∧
    dictLookup (sentParams
      (getSecretsParams bsid cb rko md SecretLookupType.any pg ps))
      "baseSecret" = bsid :=
  ⟨getSecrets_base_lookup bsid cb rko md pg ps,
   getSecrets_derived_lookup bsid cb rko md pg ps,
   getSecrets_any_lookup bsid cb rko md pg ps⟩

/-- C3: when a `base_secret_id` is supplied together with
`lookup_type = base` or `derived`, the `baseSecret` parameter on the
wire is the lookup-type boolean, not the supplied id — the id filter is
silently overwritten because both filters share the query key
`"baseSecret"`. -/
theorem getSecrets_baseSecretId_overwritten (id : String)
    (cb rko : Option String) (md : Option (List (String × String)))
    (pg ps : Option Int) (hf : id ≠ "false") (ht : id ≠ "true") :
    dictLookup (sentParams
      (getSecretsParams (some id) cb rko md SecretLookupType.base pg ps))
      "baseSecret" = some "false" ∧
    dictLookup (sentParams
      (getSecretsParams (some id) cb rko md SecretLookupType.base pg ps))
      "baseSecret" ≠ some id ∧
    dictLookup (sentParams
      (getSecretsParams (some id) cb rko md SecretLookupType.derived pg ps))
      "baseSecret" = some "true" ∧
    dictLookup (sentParams
      (getSecretsParams (some id) cb rko md SecretLookupType.derived pg ps))
      "baseSecret" ≠ some id := by
  refine ⟨getSecrets_base_lookup _ cb rko md pg ps, ?_,
    getSecrets_derived_lookup _ cb rko md pg ps, ?_⟩
  · rw [getSecrets_base_lookup _ cb rko md pg ps]
    intro h
    exact hf (Option.some.inj h).symm
  · rw [getSecrets_derived_lookup _ cb rko md pg ps]
    intro h
    exact ht (Option.some.inj h).symm

/-- Witness for C3 at a concrete input. -/
theorem getSecrets_baseSecretId_overwritten_witness :
    (("abc" : String) ≠ "false" ∧ ("abc" : String) ≠ "true") ∧
    (dictLookup (sentParams (getSecretsParams (some "abc") none none none
      SecretLookupType.base none none)) "baseSecret" = some "false" ∧
    dictLookup (sentParams (getSecretsParams (some "abc") none none none
      SecretLookupType.base none none)) "baseSecret" ≠ some "abc" ∧
    dictLookup (sentParams (getSecretsParams (some "abc") none none none
      SecretLookupType.derived none none)) "baseSecret" = some "true" ∧
    dictLookup (sentParams (getSecretsParams (some "abc") none none none
      SecretLookupType.derived none none)) "baseSecret" ≠ some "abc") :=
  ⟨⟨by decide, by decide⟩,
   getSecrets_baseSecretId_overwritten "abc" none none none none none
     (by decide) (by decide)⟩

/-- C10 counterexample: with the spec-modelled pagination validation in
place, a call with `page=0` fails with a validation error before any
request is built, while the same call with `page=None` succeeds and
sends a request — so `0` is not treated exactly like an absent
argument, in either operation. -/
theorem zero_page_not_treated_as_absent :
    get_identities_by_metadata (some [("a", "b")]) (some 0) none =
      Except.error
        (DeltaError.validationError "must be a positive integer") ∧
    get_identities_by_metadata (some [("a", "b")]) none none =
      Except.ok [("metadata.a", "b")] ∧
    get_identities_by_metadata (some [("a", "b")]) (some 0) none ≠
      get_identities_by_metadata (some [("a", "b")]) none none ∧
    get_secrets none none none none SecretLookupType.any (some 0) none =
      Except.error
        (DeltaError.validationError "must be a positive integer") ∧
    get_secrets none none none none SecretLookupType.any none none =
      Except.ok [] ∧
    get_secrets none none none none SecretLookupType.any (some 0) none ≠
      get_secrets none none none none SecretLookupType.any none none := by
  refine ⟨rfl, rfl, ?_, rfl, rfl, ?_⟩ <;>
    (intro h; exact Except.noConfusion h)

/-- C10 (amended): under the spec-modelled pagination validation,
`page=0` or `page_size=0` is rejected with a typed validation error
before any request is built, in both `get_identities_by_metadata` and
`get_secrets` — the parameter is not omitted as if the argument were
absent, because no request is made at all.  The body-level truthiness
test `int(page) if page else None`, which would drop `0` exactly like
`None` in the constructed parameters, is only reachable for arguments
that pass the earlier positivity check. -/
theorem zero_pagination_rejected_before_request
    (bsid cb rko : Option String)
    (md mdi : Option (List (String × String))) (lt : SecretLookupType)
    (pg ps : Option Int) :
    get_identities_by_metadata mdi (some 0) ps = Except.error
      (DeltaError.validationError "must be a positive integer") ∧
    get_identities_by_metadata mdi pg (some 0) = Except.error
      (DeltaError.validationError "must be a positive integer") ∧
    get_secrets bsid cb rko md lt (some 0) ps = Except.error
      (DeltaError.validationError "must be a positive integer") ∧
    get_secrets bsid cb rko md lt pg (some 0) = Except.error
      (DeltaError.validationError "must be a positive integer") ∧
    getSecretsParams bsid cb rko md lt (some 0) ps =
      getSecretsParams bsid cb rko md lt none ps ∧
    getSecretsParams bsid cb rko md lt pg (some 0) =
      getSecretsParams bsid cb rko md lt pg none := by
  have h : pageParam (some 0) = pageParam none := rfl
  have hpag : paginationArgumentOk (some 0) = false := rfl
  refine ⟨?_, ?_, ?_, ?_, ?_, ?_⟩
  · simp [get_identities_by_metadata, hpag]
  · simp [get_identities_by_metadata, hpag]
  · simp [get_secrets, hpag]
  · simp [get_secrets, hpag]
  · simp only [getSecretsParams, h]
  · simp only [getSecretsParams, h]

/-- C4: the `register_identity` JSON payload always contains
`signingPublicKey` and `cryptoPublicKey`, and contains the `externalId`
(resp. `metadata`) key exactly when the corresponding optional argument
is present — absent optionals are omitted from the wire payload, not
sent as null. -/
theorem registerIdentity_payload_omits_absent_fields (pek psk : String)
    (eid : Option String) (md : Option (List (String × String))) :
    dictLookup (registerIdentityPayload pek psk eid md)
      "signingPublicKey" = some (Json.str psk) ∧
    dictLookup (registerIdentityPayload pek psk eid md)
      "cryptoPublicKey" = some (Json.str pek) ∧
    ("externalId" ∈ (registerIdentityPayload pek psk eid md).map Prod.fst
      ↔ eid ≠ none) ∧
    ("metadata" ∈ (registerIdentityPayload pek psk eid md).map Prod.fst
      ↔ md ≠ none) := by
  cases eid <;> cases md <;>
    simp [registerIdentityPayload, dictLookup]

/-- C6: both metadata updates send a PUT whose conditional `If-Match`
header (header names are case-insensitive; the code writes `if-match`)
carries `str(version)`; the secret update sends the metadata map itself
as the JSON body while the identity update wraps it as
`{"metadata": <map>}`. -/
theorem updateMetadata_ifMatch_and_body_shape (sid iid : String)
    (md : List (String × String)) (v : Int) :
    (update_secret_metadata_request sid md v).method = "PUT" ∧
    headerLookup (update_secret_metadata_request sid md v).headers
      "If-Match" = some (toString v) ∧
    (update_secret_metadata_request sid md v).jsonBody =
      some (Json.obj (md.map (fun p => (p.1, Json.str p.2)))) ∧
    (update_identity_metadata_request iid md v).method = "PUT" ∧
    headerLookup (update_identity_metadata_request iid md v).headers
      "If-Match" = some (toString v) ∧
    (update_identity_metadata_request iid md v).jsonBody =
      some (Json.obj [("metadata",
        Json.obj (md.map (fun p => (p.1, Json.str p.2))))]) :=
  ⟨rfl, rfl, rfl, rfl, rfl, rfl⟩

/-- C9: the per-identity signing function replaces only the prepared
request's headers (with the signed header set computed from the request
and the identity's private signing key); method, URL and body are
identical before and after signing, for every header-computation and
key-store function. -/
theorem signer_changes_only_headers
    (get_updated_headers : String → String → String →
      List (String × String) → Option String → String →
      List (String × String))
    (get_private_signing_key : String → String)
    (identity_id : String) (r : PreparedRequest) :
    (sign_request get_updated_headers get_private_signing_key identity_id
      r).method = r.method ∧
    (sign_request get_updated_headers get_private_signing_key identity_id
      r).url = r.url ∧
    (sign_request get_updated_headers get_private_signing_key identity_id
      r).body = r.body ∧
    (sign_request get_updated_headers get_private_signing_key identity_id
      r).headers = get_updated_headers identity_id r.method r.url
        r.headers r.body (get_private_signing_key identity_id) :=
  ⟨rfl, rfl, rfl, rfl⟩

/-- C2 counterexample: at the HTTP conflict status 409 (and the
precondition-failed status 412) both metadata updates fail with the
generic error that `raise_for_status` raises, which is not the
`VersionConflict` specialization the claim asserts — no such typed error
exists in the code. -/
theorem updateMetadata_conflict_is_generic_at_409 :
    update_secret_metadata 409 =
      Except.error (DeltaError.remoteError 409) ∧
    update_identity_metadata 412 =
      Except.error (DeltaError.remoteError 412) ∧
    (Except.error (DeltaError.remoteError 409) : Except DeltaError Unit) ≠
      Except.error (DeltaError.versionConflict 409) ∧
    (Except.error (DeltaError.remoteError 412) : Except DeltaError Unit) ≠
      Except.error (DeltaError.versionConflict 412) :=
  ⟨rfl, rfl,
   fun h => DeltaError.noConfusion (Except.error.inj h),
   fun h => DeltaError.noConfusion (Except.error.inj h)⟩

/-- C2 (amended): on every 4xx/5xx response — conflict and
precondition-failed included — `update_secret_metadata` and
`update_identity_metadata` fail with the generic error raised by
`raise_for_status`, carrying only the status; neither ever fails with a
distinguishable `VersionConflict` specialization, since the code defines
none. -/
theorem updateMetadata_conflict_raises_generic_error (s : Nat)
    (h4 : 400 ≤ s) (h6 : s < 600) :
    update_secret_metadata s = Except.error (DeltaError.remoteError s) ∧
    update_identity_metadata s = Except.error (DeltaError.remoteError s) ∧
    update_secret_metadata s ≠
      Except.error (DeltaError.versionConflict s) ∧
    update_identity_metadata s ≠
      Except.error (DeltaError.versionConflict s) := by
  have h : raise_for_status s = Except.error (DeltaError.remoteError s) := by
    simp [raise_for_status, h4, h6]
  refine ⟨h, h, ?_, ?_⟩ <;>
  · show raise_for_status s ≠ _
    rw [h]
    intro he
    exact DeltaError.noConfusion (Except.error.inj he)

/-- Witness for C2's amended theorem at the conflict status 409. -/
theorem updateMetadata_conflict_raises_generic_error_witness :
    (400 ≤ 409 ∧ 409 < 600) ∧
    (update_secret_metadata 409 =
        Except.error (DeltaError.remoteError 409) ∧
      update_identity_metadata 409 =
        Except.error (DeltaError.remoteError 409) ∧
      update_secret_metadata 409 ≠
        Except.error (DeltaError.versionConflict 409) ∧
      update_identity_metadata 409 ≠
        Except.error (DeltaError.versionConflict 409)) :=
  ⟨⟨by decide, by decide⟩,
   updateMetadata_conflict_raises_generic_error 409 (by decide) (by decide)⟩

/-- C5 counterexample: a 303 response is not in the 2xx range, yet
`register_identity` does not fail on it — `raise_for_status` only raises
for statuses in [400, 600) — and the identity id from the body is
returned. -/
theorem registerIdentity_non2xx_not_always_rejected :
    ¬(200 ≤ 303 ∧ 303 < 300) ∧
    register_identity ⟨303, [("identityId", "x")], []⟩ = Except.ok "x" :=
  ⟨by decide, rfl⟩

/-- C5 (amended): `register_identity` fails with the generic raised HTTP
error carrying the response status on every 4xx/5xx response (the exact
range `raise_for_status` rejects; 1xx/3xx responses are not rejected),
and in that case no identity id is returned; otherwise it either returns
the parsed `identityId` or fails on the missing key — never a partial
result. -/
theorem registerIdentity_error_mapping (r : HttpResponse) (i : String) :
    (400 ≤ r.status → r.status < 600 →
      register_identity r = Except.error (DeltaError.remoteError r.status)) ∧
    (¬(400 ≤ r.status ∧ r.status < 600) →
      dictLookup r.jsonBody "identityId" = some i →
      register_identity r = Except.ok i) ∧
    (¬(400 ≤ r.status ∧ r.status < 600) →
      dictLookup r.jsonBody "identityId" = none →
      register_identity r =
        Except.error (DeltaError.keyError "identityId")) := by
  refine ⟨?_, ?_, ?_⟩
  · intro h4 h6
    simp only [register_identity, raise_for_status, h4, h6, and_self,
      if_true]
    rfl
  · intro hno hlook
    simp only [register_identity, raise_for_status, hno, if_false, hlook]
    rfl
  · intro hno hlook
    simp only [register_identity, raise_for_status, hno, if_false, hlook]
    rfl

/-- Witness for C5's amended theorem: a 404 fails with the generic
error, a 201 with an id in the body returns it. -/
theorem registerIdentity_error_mapping_witness :
    (400 ≤ 404 ∧ 404 < 600) ∧
    register_identity ⟨404, [("identityId", "x")], []⟩ =
      Except.error (DeltaError.remoteError 404) ∧
    (¬(400 ≤ 201 ∧ 201 < 600) ∧
      dictLookup [("identityId", "x")] "identityId" = some "x") ∧
    register_identity ⟨201, [("identityId", "x")], []⟩ = Except.ok "x" :=
  ⟨⟨by decide, by decide⟩,
   (registerIdentity_error_mapping ⟨404, [("identityId", "x")], []⟩
     "x").1 (by decide) (by decide),
   ⟨by decide, rfl⟩,
   (registerIdentity_error_mapping ⟨201, [("identityId", "x")], []⟩
     "x").2.1 (by decide) rfl⟩

/-- C7: on a 2xx response whose entity-tag header parses as an integer,
`get_secret_metadata` returns the JSON body as the metadata map paired
with the version parsed from the `ETag` header. -/
theorem getSecretMetadata_returns_body_and_etag_version
    (r : HttpResponse) (etag : String) (v : Int)
    (h2 : 200 ≤ r.status) (h3 : r.status < 300)
    (hetag : headerLookup r.headers "ETag" = some etag)
    (hv : pyInt etag = Except.ok v) :
    get_secret_metadata r = Except.ok (r.jsonBody, v) := by
  have hcond : ¬(400 ≤ r.status ∧ r.status < 600) := by omega
  simp only [get_secret_metadata, raise_for_status, hcond, if_false,
    hetag, hv]
  rfl

/-- Witness for C7 at a concrete 200 response with `ETag: 2`. -/
theorem getSecretMetadata_returns_body_and_etag_version_witness :
    (200 ≤ 200 ∧ 200 < 300 ∧
      headerLookup [("etag", "2")] "ETag" = some "2" ∧
      pyInt "2" = Except.ok 2) ∧
    get_secret_metadata ⟨200, [("name", "a")], [("etag", "2")]⟩ =
      Except.ok ([("name", "a")], 2) :=
  ⟨⟨by decide, by decide, rfl, rfl⟩,
   getSecretMetadata_returns_body_and_etag_version
     ⟨200, [("name", "a")], [("etag", "2")]⟩ "2" 2
     (by decide) (by decide) rfl rfl⟩

/-- C8: for every call whose pagination arguments pass the
(spec-modelled, earlier-running) pagination shape check,
`get_identities_by_metadata` fails with the metadata validation error —
before any request is built — when the metadata map is absent or empty;
for a non-empty map, every metadata key `k` is transmitted as the query
parameter `"metadata." ++ k`. -/
theorem getIdentitiesByMetadata_validation_and_prefixing
    (md : List (String × String)) (k v : String) (pg ps : Option Int)
    (hmem : (k, v) ∈ md) (hnd : (md.map Prod.fst).Nodup)
    (hpg : paginationArgumentOk pg = true)
    (hps : paginationArgumentOk ps = true) :
    get_identities_by_metadata none pg ps = Except.error
      (DeltaError.validationError "must be a non-empty dict[str, str]") ∧
    get_identities_by_metadata (some []) pg ps = Except.error
      (DeltaError.validationError "must be a non-empty dict[str, str]") ∧
    ∃ sent, get_identities_by_metadata (some md) pg ps = Except.ok sent ∧
      ("metadata." ++ k, v) ∈ sent := by
  refine ⟨?_, ?_, ?_⟩
  · simp [get_identities_by_metadata, hpg, hps, metadataArgumentOk]
  · simp [get_identities_by_metadata, hpg, hps, metadataArgumentOk]
  · have hne : md.isEmpty = false := by
      cases md with
      | nil => simp at hmem
      | cons a l => rfl
    have hok : metadataArgumentOk (some md) = true := by
      simp [metadataArgumentOk, hne]
    refine ⟨sentParams (dictInsert (dictInsert (metadataPrefixed md)
      "page" (pageParam pg)) "pageSize" (pageParam ps)), ?_, ?_⟩
    · simp [get_identities_by_metadata, hpg, hps, hok]
    · apply mem_sentParams_of_some
      have h1 := mem_metadataPrefixed hmem hnd
      have h2 : ("metadata." ++ k, some v) ∈
          dictInsert (metadataPrefixed md) "page" (pageParam pg) :=
        mem_dictInsert_of_ne h1 (metadata_prefix_ne_of_head k (by decide))
      exact mem_dictInsert_of_ne h2
        (metadata_prefix_ne_of_head k (by decide))

/-- Witness for C8 at the one-entry map `{"a": "b"}` with absent (hence
valid) pagination arguments. -/
theorem getIdentitiesByMetadata_validation_and_prefixing_witness :
    ((("a" : String), ("b" : String)) ∈
        [(("a" : String), ("b" : String))] ∧
      (([(("a" : String), ("b" : String))]).map Prod.fst).Nodup ∧
      paginationArgumentOk none = true) ∧
    get_identities_by_metadata none none none = Except.error
      (DeltaError.validationError "must be a non-empty dict[str, str]") ∧
    get_identities_by_metadata (some []) none none = Except.error
      (DeltaError.validationError "must be a non-empty dict[str, str]") :=
  ⟨⟨by decide, by decide, by decide⟩,
   (getIdentitiesByMetadata_validation_and_prefixing [("a", "b")] "a" "b"
     none none (by decide) (by decide) (by decide) (by decide)).1,
   (getIdentitiesByMetadata_validation_and_prefixing [("a", "b")] "a" "b"
     none none (by decide) (by decide) (by decide) (by decide)).2.1⟩

end Delta
